import Mathlib

/-!
Verification development for the wireguard-relay-api repository.

The Python source is shallowly embedded:
* strings are `List Char` (`PyStr`); a Python f-string becomes list append;
* JSON dictionaries keyed by strings are association lists (Python dicts
  preserve insertion order, and the code only ever inserts a key that is
  absent, so an association list with unique keys is an exact model);
* an operation that can raise an exception returns `Except err α` together
  with the resulting persisted state (on an exception the Python code
  raises before writing the file, so the persisted state is unchanged);
* the external control command `wg set ...` is modelled by a boolean
  oracle `wgSetOk` deciding whether `subprocess.run` succeeds;
* host-filesystem writes themselves are modelled as reliable.
-/

abbrev PyStr := List Char

/-- Python `str.strip()`: drop whitespace from both ends of the string. -/
def pyStrip (s : PyStr) : PyStr :=
  ((s.dropWhile Char.isWhitespace).reverse.dropWhile Char.isWhitespace).reverse

/-- Python `list.sort()` on a list of ints sorts ascending in place.  A
sorted permutation of a list of naturals is unique, so `insertionSort`
yields exactly the list Python produces. -/
def pySortNat (l : List Nat) : List Nat :=
  List.insertionSort (· ≤ ·) l

/-! ## `src/device_store.py` -/

/-- One record of the `devices` JSON object, as built in
`DeviceStore.register_device` (the persisted record; the `network` key is
added only to the returned copy). -/
structure Device where
  serial : PyStr
  public_key : PyStr
  ip_last_octet : Nat
  added_at : PyStr
deriving DecidableEq

/-- The `ip_state` JSON object. -/
structure IpState where
  free_ips : List Nat
  next_ip : Nat
  max_ip : Nat
  network : PyStr
deriving DecidableEq

/-- The `metadata` JSON object (never read by any operation). -/
structure StoreMetadata where
  created_at : PyStr
  version : Nat
deriving DecidableEq

/-- The whole persisted JSON document of `devices.json`. -/
structure StoreData where
  ip_state : IpState
  devices : List (PyStr × Device)
  metadata : StoreMetadata
deriving DecidableEq

/-- The initial document written by `DeviceStore._ensure_file_exists`. -/
def initialStoreData (createdAt : PyStr) : StoreData :=
  { ip_state := { free_ips := [], next_ip := 2, max_ip := 254,
                  network := "10.10.0".data },
    devices := [],
    metadata := { created_at := createdAt, version := 1 } }

/-- Python dict lookup `d[k]` / membership `k in d` on the association
list (keys are unique, so the first hit is the only hit). -/
def dictGet (m : List (PyStr × Device)) (k : PyStr) : Option Device :=
  match m with
  | [] => none
  | (k', v) :: rest => if k' = k then some v else dictGet rest k

/-- The exceptions raised by `DeviceStore`, one per `raise` site. -/
inductive StoreError
  | deviceAlreadyRegistered   -- ValueError "Device already registered"
  | publicKeyAlreadyRegistered -- ValueError "Public key already registered"
  | noAvailableIpAddresses    -- RuntimeError "No available IP addresses"
  | deviceNotFound            -- ValueError "Device not found"
deriving DecidableEq

/-- The Python exception class: `ValueError` (true) vs `RuntimeError`. -/
def StoreError.isValueError : StoreError → Bool
  | .deviceAlreadyRegistered => true
  | .publicKeyAlreadyRegistered => true
  | .noAvailableIpAddresses => false
  | .deviceNotFound => true

/-- The message string of each exception. -/
def StoreError.message : StoreError → PyStr
  | .deviceAlreadyRegistered => "Device already registered".data
  | .publicKeyAlreadyRegistered => "Public key already registered".data
  | .noAvailableIpAddresses => "No available IP addresses".data
  | .deviceNotFound => "Device not found".data

/-- `DeviceStore.register_device(serial, public_key)`.  `now` stands for
`datetime.now(timezone.utc).isoformat()`.  Returns the outcome together
with the persisted state after the call (unchanged whenever it raises,
since every `raise` happens before `_save`). -/
def register_device (s : StoreData) (serial public_key now : PyStr) :
    Except StoreError Device × StoreData :=
  if (dictGet s.devices serial).isSome then
    (.error .deviceAlreadyRegistered, s)
  else if (s.devices.map (fun p => p.2)).any
      (fun d => decide (d.public_key = public_key)) then
    (.error .publicKeyAlreadyRegistered, s)
  else
    match s.ip_state.free_ips with
    | last_octet :: restFree =>
      (.ok { serial := serial, public_key := public_key,
             ip_last_octet := last_octet, added_at := now },
       { s with ip_state := { s.ip_state with free_ips := restFree },
                devices := s.devices ++
                  [(serial,
                    { serial := serial, public_key := public_key,
                      ip_last_octet := last_octet, added_at := now })] })
    | [] =>
      if s.ip_state.next_ip ≤ s.ip_state.max_ip then
        (.ok { serial := serial, public_key := public_key,
               ip_last_octet := s.ip_state.next_ip, added_at := now },
         { s with
             ip_state := { s.ip_state with next_ip := s.ip_state.next_ip + 1 },
             devices := s.devices ++
               [(serial,
                 { serial := serial, public_key := public_key,
                   ip_last_octet := s.ip_state.next_ip, added_at := now })] })
      else
        (.error .noAvailableIpAddresses, s)

/-- `DeviceStore.remove_device(serial)`: pop the record (keys are unique,
so removing every pair whose key is `serial` removes exactly the popped
entry), append its octet to `free_ips` and re-sort ascending. -/
def remove_device (s : StoreData) (serial : PyStr) :
    Except StoreError Unit × StoreData :=
  match dictGet s.devices serial with
  | none => (.error .deviceNotFound, s)
  | some device =>
    (.ok (),
     { s with
         devices := s.devices.filter (fun p => decide (¬ p.1 = serial)),
         ip_state := { s.ip_state with
           free_ips :=
             pySortNat (s.ip_state.free_ips ++ [device.ip_last_octet]) } })

/-- `DeviceStore.get_device(serial)` (shared-lock read, no mutation). -/
def get_device (s : StoreData) (serial : PyStr) : Except StoreError Device :=
  match dictGet s.devices serial with
  | none => .error .deviceNotFound
  | some device => .ok device

/-! ## `src/wireguard_manager.py` -/

/-- The failures of `WireGuardManager`: `RuntimeError` raised when the
`wg set` subprocess fails, and the `IndexError` that
`remove_block` raises through `new_lines.pop()` on an empty list. -/
inductive WgError
  | liveApplyFailed   -- RuntimeError from a failed wg set call
  | indexError        -- IndexError from new_lines.pop() on an empty list
deriving DecidableEq

/-- Python `f"PublicKey = \x7bpublic_key\x7d" in line` — substring test. -/
def publicKeyLineMatches (public_key line : PyStr) : Bool :=
  decide (("PublicKey = ".data ++ public_key) <:+: line)

/-- The `i > 0 and lines[i-1].strip() == "[Peer]"` test, with
`lines[i-1]` carried as an `Option` (`none` exactly when `i = 0`). -/
def prevIsPeerHeader : Option PyStr → Bool
  | none => false
  | some p => decide (pyStrip p = "[Peer]".data)

/-- The loop body of `remove_block` inside
`WireGuardManager.remove_peer`: walk the lines with the accumulator
`new_lines` (`acc`), the `skip` counter and the previous original line.
A matching line first pops the `[Peer]` header off the accumulator when
the previous line strips to `[Peer]` (`list.pop` on an empty accumulator
raises `IndexError`), then the line itself and — through `skip` — the
line after it are dropped. -/
def removeBlockAux (public_key : PyStr) (prev : Option PyStr)
    (acc : List PyStr) (skip : Nat) :
    List PyStr → Except WgError (List PyStr)
  | [] => .ok acc
  | line :: rest =>
    if publicKeyLineMatches public_key line then
      if prevIsPeerHeader prev then
        match acc with
        | [] => .error .indexError
        | _ :: _ => removeBlockAux public_key (some line) acc.dropLast 1 rest
      else
        removeBlockAux public_key (some line) acc 1 rest
    else if 0 < skip then
      removeBlockAux public_key (some line) acc (skip - 1) rest
    else
      removeBlockAux public_key (some line) (acc ++ [line]) skip rest

/-- `remove_block(lines)` from `WireGuardManager.remove_peer`. -/
def remove_block (public_key : PyStr) (lines : List PyStr) :
    Except WgError (List PyStr) :=
  removeBlockAux public_key none [] 0 lines

/-- The address string `f"\x7bnetwork\x7d.\x7bip_last_octet\x7d"`. -/
def ipAddressOf (network : PyStr) (ip_last_octet : Nat) : PyStr :=
  network ++ ".".data ++ (toString ip_last_octet).data

/-- The four lines `add_peer` appends to the configuration text. -/
def peerBlockLines (public_key ip_address : PyStr) : List PyStr :=
  [[], "[Peer]".data,
   "PublicKey = ".data ++ public_key,
   "AllowedIPs = ".data ++ ip_address ++ "/32".data]

/-- `WireGuardManager.add_peer(device)`: run `wg set … peer … allowed-ips …`
(outcome given by the oracle `wgSetOk`; on failure raise `RuntimeError`
without touching the file), then append the peer block to the
configuration lines under the file lock. -/
def add_peer (wgSetOk : Bool) (public_key network : PyStr)
    (ip_last_octet : Nat) (conf : List PyStr) :
    Except WgError Unit × List PyStr :=
  if wgSetOk then
    (.ok (), conf ++ peerBlockLines public_key (ipAddressOf network ip_last_octet))
  else
    (.error .liveApplyFailed, conf)

/-- `WireGuardManager.remove_peer(public_key)`: run `wg set … peer … remove`
(oracle `wgSetOk`; on failure raise `RuntimeError` without touching the
file), then rewrite the configuration through `remove_block`; if
`remove_block` raises, the exception propagates before the file is
written back, leaving the lines unchanged. -/
def remove_peer (wgSetOk : Bool) (public_key : PyStr) (conf : List PyStr) :
    Except WgError Unit × List PyStr :=
  if wgSetOk then
    match remove_block public_key conf with
    | .ok newLines => (.ok (), newLines)
    | .error e => (.error e, conf)
  else
    (.error .liveApplyFailed, conf)

/-! ## `src/device_routes.py` -/

/-- Joint persisted state of the two stores: `devices.json` and the
lines of `wg0.conf`. -/
structure SysState where
  store : StoreData
  conf : List PyStr
deriving DecidableEq

/-- Caller-visible failures of the two endpoints, one per `raise
HTTPException` site. -/
inductive ApiError
  | badRequest (e : StoreError)  -- 400: ValueError in the register route
  | notFound (e : StoreError)    -- 404: ValueError in the remove route
  | serverStore (e : StoreError) -- 500: RuntimeError raised by the store
  | serverWg (e : WgError)       -- 500: RuntimeError or unexpected error
                                 --      from the WireGuard step
deriving DecidableEq

/-- Whether a failure maps to an HTTP 5xx status (a server-side failure). -/
def ApiError.isServerError : ApiError → Bool
  | .badRequest _ => false
  | .notFound _ => false
  | .serverStore _ => true
  | .serverWg _ => true

/-- The success body of `/devices/register`. -/
structure RegisterResponse where
  assigned_ip : PyStr
  relay_public_key : PyStr
deriving DecidableEq

/-- The `/devices/register` endpoint: register in `devices.json`; on
success add the WireGuard peer, rolling the registration back with
`remove_device` if that fails and re-raising as `RuntimeError` (HTTP
500); a `ValueError` maps to HTTP 400 and a `RuntimeError` to HTTP 500.
(If the rollback itself raised `ValueError` it would propagate to the
outer handler as HTTP 400; with unique serials this branch is
unreachable.) -/
def register_route (wgSetOk : Bool) (relayKey serial public_key now : PyStr)
    (sys : SysState) : Except ApiError RegisterResponse × SysState :=
  match register_device sys.store serial public_key now with
  | (.error e, s) =>
    if e.isValueError then
      (.error (.badRequest e), { sys with store := s })
    else
      (.error (.serverStore e), { sys with store := s })
  | (.ok device, s) =>
    match add_peer wgSetOk device.public_key s.ip_state.network
        device.ip_last_octet sys.conf with
    | (.ok _, conf') =>
      (.ok { assigned_ip := ipAddressOf s.ip_state.network device.ip_last_octet,
             relay_public_key := relayKey },
       { store := s, conf := conf' })
    | (.error e, conf') =>
      match remove_device s serial with
      | (.ok _, s') => (.error (.serverWg e), { store := s', conf := conf' })
      | (.error e', s') => (.error (.badRequest e'), { store := s', conf := conf' })

/-- The `/devices/remove` endpoint: look the device up, remove the live
peer (and its configuration block), and only then remove the registry
record; a `ValueError` maps to HTTP 404, a `RuntimeError` (and the
unexpected `IndexError` case) to HTTP 500. -/
def remove_route (wgSetOk : Bool) (serial : PyStr) (sys : SysState) :
    Except ApiError Unit × SysState :=
  match get_device sys.store serial with
  | .error e => (.error (.notFound e), sys)
  | .ok device =>
    match remove_peer wgSetOk device.public_key sys.conf with
    | (.error e, conf') => (.error (.serverWg e), { sys with conf := conf' })
    | (.ok _, conf') =>
      match remove_device sys.store serial with
      | (.ok _, s') => (.ok (), { store := s', conf := conf' })
      | (.error e, s') => (.error (.notFound e), { store := s', conf := conf' })

/-! ## Registry operation sequences and invariants -/

/-- One mutating registry call. -/
inductive StoreOp
  | reg (serial public_key now : PyStr)
  | rem (serial : PyStr)

/-- Run one registry call, keeping the persisted state it leaves behind
(a raising call leaves the file unchanged). -/
def applyStoreOp (s : StoreData) : StoreOp → StoreData
  | .reg serial public_key now => (register_device s serial public_key now).2
  | .rem serial => (remove_device s serial).2

/-- Run a finite sequence of registry calls. -/
def runStoreOps (s : StoreData) (ops : List StoreOp) : StoreData :=
  ops.foldl applyStoreOp s

/-- The address suffixes currently assigned, with multiplicity. -/
def devSuffixes (s : StoreData) : List Nat :=
  s.devices.map (fun p => p.2.ip_last_octet)

/-- The pool-accounting and uniqueness invariant of the persisted
registry state. -/
def PoolInv (s : StoreData) : Prop :=
  (∀ n, 2 ≤ n → n < s.ip_state.next_ip →
    (devSuffixes s).count n + s.ip_state.free_ips.count n = 1)
  ∧ (∀ n ∈ s.ip_state.free_ips, 2 ≤ n ∧ n < s.ip_state.next_ip)
  ∧ (∀ p ∈ s.devices, 2 ≤ p.2.ip_last_octet ∧
      p.2.ip_last_octet < s.ip_state.next_ip)
  ∧ s.ip_state.next_ip ≤ s.ip_state.max_ip + 1
  ∧ s.ip_state.free_ips.Sorted (· ≤ ·)
  ∧ (s.devices.map (fun p => p.1)).Nodup
  ∧ (s.devices.map (fun p => p.2.public_key)).Nodup
  ∧ 2 ≤ s.ip_state.next_ip

/-! ## Helper lemmas -/

theorem dictGet_nil (k : PyStr) : dictGet [] k = none := rfl

theorem dictGet_cons (k' : PyStr) (v' : Device) (tl : List (PyStr × Device))
    (k : PyStr) :
    dictGet ((k', v') :: tl) k = if k' = k then some v' else dictGet tl k := rfl

theorem dictGet_none_iff {m : List (PyStr × Device)} {k : PyStr} :
    dictGet m k = none ↔ ∀ p ∈ m, p.1 ≠ k := by
  induction m with
  | nil => simp [dictGet_nil]
  | cons hd tl ih =>
    obtain ⟨k', v'⟩ := hd
    by_cases hk : k' = k
    · rw [dictGet_cons, if_pos hk]
      constructor
      · intro h; cases h
      · intro h
        exact absurd hk (h (k', v') (List.mem_cons_self _ _))
    · rw [dictGet_cons, if_neg hk, ih]
      simp only [List.mem_cons]
      constructor
      · rintro h p (rfl | hp)
        · exact hk
        · exact h p hp
      · intro h p hp
        exact h p (Or.inr hp)

theorem mem_of_dictGet {m : List (PyStr × Device)} {k : PyStr} {v : Device}
    (h : dictGet m k = some v) : (k, v) ∈ m := by
  induction m with
  | nil => rw [dictGet_nil] at h; cases h
  | cons hd tl ih =>
    obtain ⟨k', v'⟩ := hd
    by_cases hk : k' = k
    · subst hk
      rw [dictGet_cons, if_pos rfl] at h
      cases h
      exact List.mem_cons_self _ _
    · rw [dictGet_cons, if_neg hk] at h
      exact List.mem_cons_of_mem _ (ih h)

theorem dictGet_append_of_none {m : List (PyStr × Device)} {k : PyStr}
    (h : dictGet m k = none) (l : List (PyStr × Device)) :
    dictGet (m ++ l) k = dictGet l k := by
  induction m with
  | nil => rfl
  | cons hd tl ih =>
    obtain ⟨k', v'⟩ := hd
    rw [dictGet_cons] at h
    by_cases hk : k' = k
    · rw [if_pos hk] at h; cases h
    · rw [if_neg hk] at h
      rw [List.cons_append, dictGet_cons, if_neg hk]
      exact ih h

theorem dictGet_filter_self (m : List (PyStr × Device)) (k : PyStr) :
    dictGet (m.filter (fun p => decide (¬ p.1 = k))) k = none := by
  induction m with
  | nil => rfl
  | cons hd tl ih =>
    obtain ⟨k', v'⟩ := hd
    by_cases hk : k' = k
    · rw [List.filter_cons, if_neg (by simp [hk])]
      exact ih
    · rw [List.filter_cons, if_pos (by simp [hk]), dictGet_cons, if_neg hk]
      exact ih

theorem register_device_eq_serial_present {s : StoreData} {serial : PyStr}
    (h : (dictGet s.devices serial).isSome) (pk now : PyStr) :
    register_device s serial pk now = (.error .deviceAlreadyRegistered, s) := by
  unfold register_device
  rw [if_pos h]

theorem register_device_eq_dup_key {s : StoreData} {serial pk : PyStr}
    (h1 : dictGet s.devices serial = none)
    (h2 : (s.devices.map (fun p => p.2)).any
      (fun x => decide (x.public_key = pk)) = true) (now : PyStr) :
    register_device s serial pk now = (.error .publicKeyAlreadyRegistered, s) := by
  unfold register_device
  rw [if_neg (by simp [h1]), if_pos h2]

theorem register_device_eq_of_free {s : StoreData} {serial pk : PyStr}
    {o : Nat} {rest : List Nat}
    (h1 : dictGet s.devices serial = none)
    (h2 : (s.devices.map (fun p => p.2)).any
      (fun x => decide (x.public_key = pk)) = false)
    (h3 : s.ip_state.free_ips = o :: rest) (now : PyStr) :
    register_device s serial pk now =
      (.ok { serial := serial, public_key := pk, ip_last_octet := o,
             added_at := now },
       { s with ip_state := { s.ip_state with free_ips := rest },
                devices := s.devices ++
                  [(serial,
                    { serial := serial, public_key := pk, ip_last_octet := o,
                      added_at := now })] }) := by
  unfold register_device
  rw [if_neg (by simp [h1]), if_neg (by simp [h2]), h3]

theorem register_device_eq_of_next {s : StoreData} {serial pk : PyStr}
    (h1 : dictGet s.devices serial = none)
    (h2 : (s.devices.map (fun p => p.2)).any
      (fun x => decide (x.public_key = pk)) = false)
    (h3 : s.ip_state.free_ips = [])
    (h4 : s.ip_state.next_ip ≤ s.ip_state.max_ip) (now : PyStr) :
    register_device s serial pk now =
      (.ok { serial := serial, public_key := pk,
             ip_last_octet := s.ip_state.next_ip, added_at := now },
       { s with
           ip_state := { s.ip_state with next_ip := s.ip_state.next_ip + 1 },
           devices := s.devices ++
             [(serial,
               { serial := serial, public_key := pk,
                 ip_last_octet := s.ip_state.next_ip, added_at := now })] }) := by
  unfold register_device
  rw [if_neg (by simp [h1]), if_neg (by simp [h2]), h3, if_pos h4]

theorem register_device_eq_exhausted {s : StoreData} {serial pk : PyStr}
    (h1 : dictGet s.devices serial = none)
    (h2 : (s.devices.map (fun p => p.2)).any
      (fun x => decide (x.public_key = pk)) = false)
    (h3 : s.ip_state.free_ips = [])
    (h4 : ¬ s.ip_state.next_ip ≤ s.ip_state.max_ip) (now : PyStr) :
    register_device s serial pk now = (.error .noAvailableIpAddresses, s) := by
  unfold register_device
  rw [if_neg (by simp [h1]), if_neg (by simp [h2]), h3, if_neg h4]

theorem remove_device_eq_of_get {s : StoreData} {serial : PyStr} {v : Device}
    (h : dictGet s.devices serial = some v) :
    remove_device s serial =
      (.ok (),
       { s with
           devices := s.devices.filter (fun p => decide (¬ p.1 = serial)),
           ip_state := { s.ip_state with
             free_ips :=
               pySortNat (s.ip_state.free_ips ++ [v.ip_last_octet]) } }) := by
  unfold remove_device
  rw [h]

theorem remove_device_eq_not_found {s : StoreData} {serial : PyStr}
    (h : dictGet s.devices serial = none) :
    remove_device s serial = (.error .deviceNotFound, s) := by
  unfold remove_device
  rw [h]

theorem register_device_ok_elim {s : StoreData} {serial pk now : PyStr}
    {d : Device} {s1 : StoreData}
    (h : register_device s serial pk now = (.ok d, s1)) :
    dictGet s.devices serial = none
    ∧ s1.devices = s.devices ++ [(serial, d)]
    ∧ d.serial = serial ∧ d.public_key = pk ∧ d.added_at = now := by
  unfold register_device at h
  by_cases h1 : (dictGet s.devices serial).isSome
  · rw [if_pos h1] at h
    simp at h
  · have hnone : dictGet s.devices serial = none := by
      cases ho : dictGet s.devices serial with
      | none => rfl
      | some v => rw [ho] at h1; simp at h1
    rw [if_neg h1] at h
    by_cases h2 : (s.devices.map (fun p => p.2)).any
        (fun x => decide (x.public_key = pk)) = true
    · rw [if_pos h2] at h
      simp at h
    · rw [if_neg h2] at h
      cases hfree : s.ip_state.free_ips with
      | cons o rest =>
        rw [hfree] at h
        simp only [Prod.mk.injEq, Except.ok.injEq] at h
        obtain ⟨hd, hs1⟩ := h
        subst hd
        subst hs1
        exact ⟨hnone, rfl, rfl, rfl, rfl⟩
      | nil =>
        rw [hfree] at h
        by_cases h3 : s.ip_state.next_ip ≤ s.ip_state.max_ip
        · rw [if_pos h3] at h
          simp only [Prod.mk.injEq, Except.ok.injEq] at h
          obtain ⟨hd, hs1⟩ := h
          subst hd
          subst hs1
          exact ⟨hnone, rfl, rfl, rfl, rfl⟩
        · rw [if_neg h3] at h
          simp at h

/-! ## Concrete states used by the witnesses -/

/-- The device record produced by the first registration on a fresh store. -/
def devA : Device :=
  { serial := "A".data, public_key := "KA".data, ip_last_octet := 2,
    added_at := [] }

/-- The store after registering `devA` on a freshly created file. -/
def storeA : StoreData :=
  { ip_state := { free_ips := [], next_ip := 3, max_ip := 254,
                  network := "10.10.0".data },
    devices := [("A".data, devA)],
    metadata := { created_at := [], version := 1 } }

/-- An exhausted pool: no free suffix and the cursor past the bound. -/
def storeEx : StoreData :=
  { ip_state := { free_ips := [], next_ip := 255, max_ip := 254,
                  network := "10.10.0".data },
    devices := [],
    metadata := { created_at := [], version := 1 } }

/-- A small configuration text with only a global section. -/
def confI : List PyStr :=
  ["[Interface]".data, "Address = 10.10.0.1/24".data]

/-! ## Claims -/

/-- Claim C6: when the live-interface control command fails, `add_peer`
fails with the live-apply error and leaves the configuration lines
untouched, and symmetrically `remove_peer` fails and does not modify the
configuration lines: the file mutation happens only after the live step
succeeds. -/
theorem claim_C6 (pk network : PyStr) (octet : Nat) (conf : List PyStr) :
    add_peer false pk network octet conf = (.error .liveApplyFailed, conf)
    ∧ remove_peer false pk conf = (.error .liveApplyFailed, conf) :=
  ⟨rfl, rfl⟩

/-- Claim C7: registering a serial that is already present fails with the
serial-conflict error and returns the persisted registry/pool state
byte-for-byte unchanged, and the same unchanged-state guarantee holds for
the duplicate-key and exhaustion failures. -/
theorem claim_C7 (s : StoreData) (serial pk now : PyStr) :
    ((dictGet s.devices serial).isSome →
      register_device s serial pk now = (.error .deviceAlreadyRegistered, s))
    ∧ (dictGet s.devices serial = none →
        (s.devices.map (fun p => p.2)).any
          (fun x => decide (x.public_key = pk)) = true →
        register_device s serial pk now
          = (.error .publicKeyAlreadyRegistered, s))
    ∧ (dictGet s.devices serial = none →
        (s.devices.map (fun p => p.2)).any
          (fun x => decide (x.public_key = pk)) = false →
        s.ip_state.free_ips = [] →
        s.ip_state.max_ip < s.ip_state.next_ip →
        register_device s serial pk now
          = (.error .noAvailableIpAddresses, s)) := by
  exact ⟨fun h => register_device_eq_serial_present h pk now,
         fun h1 h2 => register_device_eq_dup_key h1 h2 now,
         fun h1 h2 h3 h4 =>
           register_device_eq_exhausted h1 h2 h3 (by omega) now⟩

theorem claim_C7_witness :
    register_device storeA "A".data "KX".data []
      = (.error .deviceAlreadyRegistered, storeA)
    ∧ register_device storeA "B".data "KA".data []
      = (.error .publicKeyAlreadyRegistered, storeA)
    ∧ register_device storeEx "B".data "KB".data []
      = (.error .noAvailableIpAddresses, storeEx) :=
  ⟨(claim_C7 storeA "A".data "KX".data []).1 rfl,
   (claim_C7 storeA "B".data "KA".data []).2.1 rfl rfl,
   (claim_C7 storeEx "B".data "KB".data []).2.2 rfl rfl rfl (by decide)⟩

/-- Claim C10: when a registration conflicts on both stores at once — the
serial is present and the public key is used by an existing record — the
failure is the serial-conflict error, whose message is
`Device already registered`, and not the duplicate-key error: the serial
check runs first. -/
theorem claim_C10 (s : StoreData) (serial pk now : PyStr)
    (hser : (dictGet s.devices serial).isSome)
    (_hpk : (s.devices.map (fun p => p.2)).any
      (fun x => decide (x.public_key = pk)) = true) :
    register_device s serial pk now = (.error .deviceAlreadyRegistered, s)
    ∧ StoreError.deviceAlreadyRegistered.message
        = "Device already registered".data
    ∧ StoreError.deviceAlreadyRegistered
        ≠ StoreError.publicKeyAlreadyRegistered :=
  ⟨register_device_eq_serial_present hser pk now, rfl, by decide⟩

theorem claim_C10_witness :
    register_device storeA "A".data "KA".data []
      = (.error .deviceAlreadyRegistered, storeA)
    ∧ StoreError.deviceAlreadyRegistered.message
        = "Device already registered".data
    ∧ StoreError.deviceAlreadyRegistered
        ≠ StoreError.publicKeyAlreadyRegistered :=
  claim_C10 storeA "A".data "KA".data [] rfl rfl

/-- Claim C5: on a removal request for a registered serial, if the live
peer-removal step fails the endpoint surfaces a server-side failure and
the joint persisted state — registry record, pool, and configuration
text — is left completely unchanged; the registry removal is only
reached after the peer removal succeeds. -/
theorem claim_C5 (sys : SysState) (serial : PyStr) (d : Device)
    (h : dictGet sys.store.devices serial = some d) :
    remove_route false serial sys
      = (.error (.serverWg .liveApplyFailed), sys)
    ∧ (ApiError.serverWg .liveApplyFailed).isServerError = true := by
  constructor
  · unfold remove_route get_device
    rw [h]
    rfl
  · rfl

theorem claim_C5_witness :
    remove_route false "A".data ⟨storeA, confI⟩
      = (.error (.serverWg .liveApplyFailed), ⟨storeA, confI⟩)
    ∧ (ApiError.serverWg .liveApplyFailed).isServerError = true :=
  claim_C5 ⟨storeA, confI⟩ "A".data devA rfl

/-- Claim C1: if registration succeeds at the registry step but the
interface-apply step fails, the endpoint surfaces the failure as a
server-side failure, the registry no longer contains the serial (the
compensating `remove_device` ran), and the configuration text — left
untouched by the failed apply — contains no line referencing that public
key. -/
theorem claim_C1 (sys : SysState) (relayKey serial pk now : PyStr)
    (d : Device) (s1 : StoreData)
    (hreg : register_device sys.store serial pk now = (.ok d, s1))
    (hconf : ∀ line ∈ sys.conf, publicKeyLineMatches pk line = false) :
    ∃ s2 : StoreData,
      register_route false relayKey serial pk now sys
        = (.error (.serverWg .liveApplyFailed), { store := s2, conf := sys.conf })
      ∧ (ApiError.serverWg .liveApplyFailed).isServerError = true
      ∧ dictGet s2.devices serial = none
      ∧ ∀ line ∈ sys.conf, publicKeyLineMatches pk line = false := by
  obtain ⟨hnone, hdev, -, -, -⟩ := register_device_ok_elim hreg
  have hget : dictGet s1.devices serial = some d := by
    rw [hdev, dictGet_append_of_none hnone, dictGet_cons, if_pos rfl]
  refine ⟨{ s1 with
              devices := s1.devices.filter (fun p => decide (¬ p.1 = serial)),
              ip_state := { s1.ip_state with
                free_ips :=
                  pySortNat (s1.ip_state.free_ips ++ [d.ip_last_octet]) } },
          ?_, rfl, dictGet_filter_self _ _, hconf⟩
  unfold register_route
  simp only [hreg, add_peer, Bool.false_eq_true, if_false,
             remove_device_eq_of_get hget]

theorem claim_C1_witness :
    ∃ s2 : StoreData,
      register_route false "RK".data "A".data "KA".data []
          ⟨initialStoreData [], []⟩
        = (.error (.serverWg .liveApplyFailed), { store := s2, conf := [] })
      ∧ (ApiError.serverWg .liveApplyFailed).isServerError = true
      ∧ dictGet s2.devices "A".data = none
      ∧ ∀ line ∈ ([] : List PyStr),
          publicKeyLineMatches "KA".data line = false :=
  claim_C1 ⟨initialStoreData [], []⟩ "RK".data "A".data "KA".data []
    devA storeA rfl (fun line h => absurd h (List.not_mem_nil line))

theorem mem_dropWhile_of_not {α : Type} {p : α → Bool} {l : List α} {a : α}
    (ha : a ∈ l) (hpa : p a = false) : a ∈ l.dropWhile p := by
  induction l with
  | nil => cases ha
  | cons x xs ih =>
    rw [List.dropWhile_cons]
    by_cases hx : p x = true
    · rw [if_pos hx]
      rcases List.mem_cons.mp ha with rfl | hmem
      · rw [hpa] at hx; cases hx
      · exact ih hmem
    · rw [if_neg hx]
      exact ha

theorem mem_pyStrip_of_not_ws {s : PyStr} {a : Char}
    (ha : a ∈ s) (hw : a.isWhitespace = false) : a ∈ pyStrip s := by
  unfold pyStrip
  exact List.mem_reverse.mpr
    (mem_dropWhile_of_not (List.mem_reverse.mpr (mem_dropWhile_of_not ha hw)) hw)

theorem u_mem_of_matches {pk line : PyStr}
    (h : publicKeyLineMatches pk line = true) : 'u' ∈ line := by
  have hinf : ("PublicKey = ".data ++ pk) <:+: line := of_decide_eq_true h
  exact hinf.subset (List.mem_append_left _ (by decide))

theorem matches_eq_false_of_not_u {pk line : PyStr} (h : 'u' ∉ line) :
    publicKeyLineMatches pk line = false :=
  decide_eq_false
    (fun hinf => h (hinf.subset (List.mem_append_left _ (by decide))))

theorem prevIsPeerHeader_eq_false_of_matches {pk line : PyStr}
    (h : publicKeyLineMatches pk line = true) :
    prevIsPeerHeader (some line) = false := by
  show decide (pyStrip line = "[Peer]".data) = false
  apply decide_eq_false
  intro heq
  have hu : 'u' ∈ pyStrip line :=
    mem_pyStrip_of_not_ws (u_mem_of_matches h) (by decide)
  rw [heq] at hu
  exact absurd hu (by decide)

theorem removeBlockAux_step_pop {pk line : PyStr} {prev : Option PyStr}
    {acc : List PyStr} {skip : Nat}
    (hm : publicKeyLineMatches pk line = true)
    (hp : prevIsPeerHeader prev = true) (hacc : acc ≠ [])
    (rest : List PyStr) :
    removeBlockAux pk prev acc skip (line :: rest)
      = removeBlockAux pk (some line) acc.dropLast 1 rest := by
  cases acc with
  | nil => exact absurd rfl hacc
  | cons a as => simp [removeBlockAux, hm, hp]

theorem removeBlockAux_step_match {pk line : PyStr} {prev : Option PyStr}
    {acc : List PyStr} {skip : Nat}
    (hm : publicKeyLineMatches pk line = true)
    (hp : prevIsPeerHeader prev = false) (rest : List PyStr) :
    removeBlockAux pk prev acc skip (line :: rest)
      = removeBlockAux pk (some line) acc 1 rest := by
  simp [removeBlockAux, hm, hp]

theorem removeBlockAux_step_skip {pk line : PyStr} {prev : Option PyStr}
    {acc : List PyStr} {skip : Nat}
    (hm : publicKeyLineMatches pk line = false) (hs : 0 < skip)
    (rest : List PyStr) :
    removeBlockAux pk prev acc skip (line :: rest)
      = removeBlockAux pk (some line) acc (skip - 1) rest := by
  simp [removeBlockAux, hm, hs]

theorem removeBlockAux_step_keep {pk line : PyStr} {prev : Option PyStr}
    {acc : List PyStr}
    (hm : publicKeyLineMatches pk line = false) (rest : List PyStr) :
    removeBlockAux pk prev acc 0 (line :: rest)
      = removeBlockAux pk (some line) (acc ++ [line]) 0 rest := by
  simp [removeBlockAux, hm]

/-- The previous-line tracker after walking a whole segment. -/
def lastOr (l : List PyStr) (prev : Option PyStr) : Option PyStr :=
  match l with
  | [] => prev
  | x :: xs => lastOr xs (some x)

theorem removeBlockAux_clean (pk : PyStr) (l : List PyStr) :
    ∀ (prev : Option PyStr) (acc rest : List PyStr),
      (∀ line ∈ l, publicKeyLineMatches pk line = false) →
      removeBlockAux pk prev acc 0 (l ++ rest)
        = removeBlockAux pk (lastOr l prev) (acc ++ l) 0 rest := by
  induction l with
  | nil => intro prev acc rest _; simp [lastOr]
  | cons x xs ih =>
    intro prev acc rest h
    have hx : publicKeyLineMatches pk x = false := h x (List.mem_cons_self _ _)
    rw [List.cons_append, removeBlockAux_step_keep hx,
        ih (some x) (acc ++ [x]) rest
          (fun line hl => h line (List.mem_cons_of_mem _ hl))]
    simp [lastOr, List.append_assoc]

theorem removeBlockAux_clean_nil (pk : PyStr) (l : List PyStr)
    (prev : Option PyStr) (acc : List PyStr)
    (h : ∀ line ∈ l, publicKeyLineMatches pk line = false) :
    removeBlockAux pk prev acc 0 l = .ok (acc ++ l) := by
  have he := removeBlockAux_clean pk l prev acc [] h
  rw [List.append_nil] at he
  rw [he]
  rfl

/-- Claim C8: on a configuration text whose target peer section — header
line, `PublicKey` line, and its one field line — is bracketed by other
lines that do not mention the target key (so in particular by other whole
sections), `remove_block` removes exactly the target section and returns
every surrounding line, in order, byte-for-byte intact. -/
theorem claim_C8 (pre post : List PyStr) (pk field : PyStr)
    (hpre : ∀ line ∈ pre, publicKeyLineMatches pk line = false)
    (hpost : ∀ line ∈ post, publicKeyLineMatches pk line = false)
    (hfield : publicKeyLineMatches pk field = false) :
    remove_block pk
      (pre ++ "[Peer]".data :: ("PublicKey = ".data ++ pk) :: field :: post)
      = .ok (pre ++ post) := by
  have hm : publicKeyLineMatches pk ("PublicKey = ".data ++ pk) = true :=
    decide_eq_true (List.infix_refl _)
  unfold remove_block
  rw [removeBlockAux_clean pk pre none [] _ hpre, List.nil_append,
      removeBlockAux_step_keep (matches_eq_false_of_not_u (by decide)),
      removeBlockAux_step_pop hm (by decide) (by simp),
      List.dropLast_concat,
      removeBlockAux_step_skip hfield (by omega)]
  exact removeBlockAux_clean_nil pk post (some field) pre hpost

theorem claim_C8_witness :
    remove_block "KA".data
      (confI ++ "[Peer]".data
        :: ("PublicKey = ".data ++ "KA".data)
        :: "AllowedIPs = 10.10.0.2/32".data
        :: ["[Peer]".data, "PublicKey = KB".data,
            "AllowedIPs = 10.10.0.3/32".data])
      = .ok (confI ++ ["[Peer]".data, "PublicKey = KB".data,
                       "AllowedIPs = 10.10.0.3/32".data]) :=
  claim_C8 confI
    ["[Peer]".data, "PublicKey = KB".data, "AllowedIPs = 10.10.0.3/32".data]
    "KA".data "AllowedIPs = 10.10.0.2/32".data
    (by decide) (by decide) (by decide)

/-- Claim C9: on configuration lines that nowhere mention the key,
appending a peer block with `add_peer` and then excising it with
`remove_block` returns the original lines followed by exactly one extra
blank line: the excision removes the header, the `PublicKey` line and the
one line after it, but never the blank separator the insertion
prepended. -/
theorem claim_C9 (lines : List PyStr) (pk network : PyStr) (octet : Nat)
    (hlines : ∀ line ∈ lines, publicKeyLineMatches pk line = false) :
    remove_block pk (add_peer true pk network octet lines).2
      = .ok (lines ++ [[]]) := by
  have hm : publicKeyLineMatches pk ("PublicKey = ".data ++ pk) = true :=
    decide_eq_true (List.infix_refl _)
  show remove_block pk
    (lines ++ [[], "[Peer]".data, "PublicKey = ".data ++ pk,
               "AllowedIPs = ".data ++ ipAddressOf network octet
                 ++ "/32".data]) = _
  unfold remove_block
  rw [removeBlockAux_clean pk lines none [] _ hlines, List.nil_append]
  rw [show ([[], "[Peer]".data, "PublicKey = ".data ++ pk,
             "AllowedIPs = ".data ++ ipAddressOf network octet
               ++ "/32".data] : List PyStr)
        = [] :: "[Peer]".data :: ("PublicKey = ".data ++ pk)
            :: ["AllowedIPs = ".data ++ ipAddressOf network octet
                  ++ "/32".data] from rfl]
  rw [removeBlockAux_step_keep (matches_eq_false_of_not_u (by decide)),
      removeBlockAux_step_keep (matches_eq_false_of_not_u (by decide)),
      removeBlockAux_step_pop hm (by decide) (by simp),
      List.dropLast_concat]
  rcases ha : publicKeyLineMatches pk
      ("AllowedIPs = ".data ++ ipAddressOf network octet ++ "/32".data)
    with _ | _
  · rw [removeBlockAux_step_skip ha (by omega)]
    rfl
  · rw [removeBlockAux_step_match ha (prevIsPeerHeader_eq_false_of_matches hm)]
    rfl

theorem claim_C9_witness :
    remove_block "KA".data
      (add_peer true "KA".data "10.10.0".data 2 confI).2
      = .ok (confI ++ [[]]) :=
  claim_C9 confI "KA".data "10.10.0".data 2 (by decide)

theorem pySortNat_perm (l : List Nat) : (pySortNat l).Perm l :=
  List.perm_insertionSort _ l

theorem pySortNat_sorted (l : List Nat) : (pySortNat l).Sorted (· ≤ ·) :=
  List.sorted_insertionSort _ l

theorem remove_device_ok_elim {s : StoreData} {serial : PyStr} {u : Unit}
    {s1 : StoreData} (h : remove_device s serial = (.ok u, s1)) :
    ∃ v, dictGet s.devices serial = some v
      ∧ s1.devices = s.devices.filter (fun p => decide (¬ p.1 = serial))
      ∧ s1.ip_state.free_ips
          = pySortNat (s.ip_state.free_ips ++ [v.ip_last_octet])
      ∧ s1.ip_state.next_ip = s.ip_state.next_ip
      ∧ s1.ip_state.max_ip = s.ip_state.max_ip := by
  unfold remove_device at h
  cases hg : dictGet s.devices serial with
  | none => rw [hg] at h; simp at h
  | some v =>
    rw [hg] at h
    simp only [Prod.mk.injEq] at h
    obtain ⟨-, hs1⟩ := h
    subst hs1
    exact ⟨v, rfl, rfl, rfl, rfl, rfl⟩

/-- Claim C3: the allocator inside `register_device` issues the smallest
free-list entry when the free list is non-empty (removing it and leaving
the cursor alone), otherwise issues `next_ip` and increments it when it
is within the bound, and otherwise fails with the exhaustion error; after
a `remove_device` (which re-inserts the released suffix keeping the free
list sorted ascending) the next registration therefore reissues the
smallest released suffix without advancing the monotonic cursor. -/
theorem claim_C3 :
    (∀ (s : StoreData) (serial pk now : PyStr),
      s.ip_state.free_ips.Sorted (· ≤ ·) →
      dictGet s.devices serial = none →
      (s.devices.map (fun p => p.2)).any
        (fun x => decide (x.public_key = pk)) = false →
      (∀ o rest, s.ip_state.free_ips = o :: rest →
        ∃ d s', register_device s serial pk now = (.ok d, s')
          ∧ d.ip_last_octet = o
          ∧ (∀ x ∈ s.ip_state.free_ips, o ≤ x)
          ∧ s'.ip_state.free_ips = rest
          ∧ s'.ip_state.next_ip = s.ip_state.next_ip)
      ∧ (s.ip_state.free_ips = [] →
          s.ip_state.next_ip ≤ s.ip_state.max_ip →
          ∃ d s', register_device s serial pk now = (.ok d, s')
            ∧ d.ip_last_octet = s.ip_state.next_ip
            ∧ s'.ip_state.next_ip = s.ip_state.next_ip + 1)
      ∧ (s.ip_state.free_ips = [] →
          s.ip_state.max_ip < s.ip_state.next_ip →
          register_device s serial pk now
            = (.error .noAvailableIpAddresses, s)))
    ∧ (∀ (s : StoreData) (serial0 : PyStr) (u : Unit) (s1 : StoreData)
         (serial pk now : PyStr),
        remove_device s serial0 = (.ok u, s1) →
        dictGet s1.devices serial = none →
        (s1.devices.map (fun p => p.2)).any
          (fun x => decide (x.public_key = pk)) = false →
        ∃ d s2, register_device s1 serial pk now = (.ok d, s2)
          ∧ d.ip_last_octet ∈ s1.ip_state.free_ips
          ∧ (∀ x ∈ s1.ip_state.free_ips, d.ip_last_octet ≤ x)
          ∧ s2.ip_state.next_ip = s1.ip_state.next_ip) := by
  constructor
  · intro s serial pk now hsort h1 h2
    refine ⟨?_, ?_, ?_⟩
    · intro o rest hfree
      refine ⟨_, _, register_device_eq_of_free h1 h2 hfree now, rfl, ?_, rfl, rfl⟩
      intro x hx
      rw [hfree] at hx hsort
      rcases List.mem_cons.mp hx with rfl | hx
      · exact le_refl x
      · exact (List.sorted_cons.mp hsort).1 x hx
    · intro hfree hle
      exact ⟨_, _, register_device_eq_of_next h1 h2 hfree hle now, rfl, rfl⟩
    · intro hfree hlt
      exact register_device_eq_exhausted h1 h2 hfree (by omega) now
  · intro s serial0 u s1 serial pk now hrem h1 h2
    obtain ⟨v, -, -, hfr, -, -⟩ := remove_device_ok_elim hrem
    have hsort1 : s1.ip_state.free_ips.Sorted (· ≤ ·) := by
      rw [hfr]; exact pySortNat_sorted _
    have hne : s1.ip_state.free_ips ≠ [] := by
      rw [hfr]
      intro hcon
      have := (pySortNat_perm
        (s.ip_state.free_ips ++ [v.ip_last_octet])).length_eq
      rw [hcon] at this
      simp at this
    obtain ⟨o, rest, hfree⟩ := List.exists_cons_of_ne_nil hne
    refine ⟨_, _, register_device_eq_of_free h1 h2 hfree now, ?_, ?_, rfl⟩
    · rw [hfree]; exact List.mem_cons_self _ _
    · intro x hx
      rw [hfree] at hx hsort1
      rcases List.mem_cons.mp hx with rfl | hx
      · exact le_refl x
      · exact (List.sorted_cons.mp hsort1).1 x hx

/-- A store whose pool has one released suffix on the free list. -/
def storeF : StoreData :=
  { ip_state := { free_ips := [3], next_ip := 4, max_ip := 254,
                  network := "10.10.0".data },
    devices := [],
    metadata := { created_at := [], version := 1 } }

/-- The store left by removing `devA` from `storeA`. -/
def storeA1 : StoreData :=
  { ip_state := { free_ips := [2], next_ip := 3, max_ip := 254,
                  network := "10.10.0".data },
    devices := [],
    metadata := { created_at := [], version := 1 } }

theorem claim_C3_witness :
    (∃ d s', register_device storeF "B".data "KB".data [] = (.ok d, s')
      ∧ d.ip_last_octet = 3
      ∧ (∀ x ∈ storeF.ip_state.free_ips, 3 ≤ x)
      ∧ s'.ip_state.free_ips = []
      ∧ s'.ip_state.next_ip = storeF.ip_state.next_ip)
    ∧ (∃ d s',
        register_device (initialStoreData []) "A".data "KA".data []
          = (.ok d, s')
        ∧ d.ip_last_octet = (initialStoreData []).ip_state.next_ip
        ∧ s'.ip_state.next_ip = (initialStoreData []).ip_state.next_ip + 1)
    ∧ register_device storeEx "B".data "KB".data []
        = (.error .noAvailableIpAddresses, storeEx)
    ∧ (∃ d s2, register_device storeA1 "C".data "KC".data [] = (.ok d, s2)
        ∧ d.ip_last_octet ∈ storeA1.ip_state.free_ips
        ∧ (∀ x ∈ storeA1.ip_state.free_ips, d.ip_last_octet ≤ x)
        ∧ s2.ip_state.next_ip = storeA1.ip_state.next_ip) :=
  ⟨(claim_C3.1 storeF "B".data "KB".data [] (by decide) rfl rfl).1 3 [] rfl,
   (claim_C3.1 (initialStoreData []) "A".data "KA".data []
      (by decide) rfl rfl).2.1 rfl (by decide),
   (claim_C3.1 storeEx "B".data "KB".data []
      (by decide) rfl rfl).2.2 rfl (by decide),
   claim_C3.2 storeA "A".data () storeA1 "C".data "KC".data [] rfl rfl rfl⟩

theorem not_mem_keys_of_dictGet_none {m : List (PyStr × Device)} {k : PyStr}
    (h : dictGet m k = none) : k ∉ m.map (fun p => p.1) := by
  intro hk
  obtain ⟨p, hp, hpk⟩ := List.mem_map.mp hk
  exact (dictGet_none_iff.mp h p hp) hpk

theorem pk_not_mem_of_any_false {m : List (PyStr × Device)} {pk : PyStr}
    (h : (m.map (fun p => p.2)).any
      (fun x => decide (x.public_key = pk)) = false) :
    pk ∉ m.map (fun p => p.2.public_key) := by
  intro hk
  obtain ⟨p, hp, hpk⟩ := List.mem_map.mp hk
  have hmem : p.2 ∈ m.map (fun q => q.2) := List.mem_map.mpr ⟨p, hp, rfl⟩
  have hany : (m.map (fun q => q.2)).any
      (fun x => decide (x.public_key = pk)) = true :=
    List.any_eq_true.mpr ⟨p.2, hmem, by simp [hpk]⟩
  rw [h] at hany
  cases hany

theorem devices_perm_filter {m : List (PyStr × Device)} {k : PyStr} {v : Device}
    (hnd : (m.map (fun p => p.1)).Nodup) (h : dictGet m k = some v) :
    m.Perm ((k, v) :: m.filter (fun p => decide (¬ p.1 = k))) := by
  induction m with
  | nil => cases h
  | cons hd tl ih =>
    obtain ⟨k', v'⟩ := hd
    rw [dictGet_cons] at h
    rw [List.map_cons] at hnd
    by_cases hk : k' = k
    · rw [if_pos hk] at h
      injection h with hv
      subst hk
      subst hv
      have hfil : tl.filter (fun p => decide (¬ p.1 = k')) = tl := by
        apply List.filter_eq_self.mpr
        intro p hp
        have hne : p.1 ≠ k' := fun he =>
          (List.nodup_cons.mp hnd).1 (List.mem_map.mpr ⟨p, hp, he⟩)
        simpa using hne
      rw [List.filter_cons, if_neg (by simp), hfil]
    · rw [if_neg hk] at h
      have ihp := ih (List.nodup_cons.mp hnd).2 h
      rw [List.filter_cons, if_pos (by simp [hk])]
      exact (ihp.cons (k', v')).trans (List.Perm.swap _ _ _)

theorem poolInv_register (s : StoreData) (serial pk now : PyStr)
    (h : PoolInv s) : PoolInv (register_device s serial pk now).2 := by
  obtain ⟨hcount, hfreeB, hdevB, hnext, hsort, hkeys, hpks, htwo⟩ := h
  by_cases h1 : (dictGet s.devices serial).isSome
  · rw [register_device_eq_serial_present h1 pk now]
    exact ⟨hcount, hfreeB, hdevB, hnext, hsort, hkeys, hpks, htwo⟩
  have h1n : dictGet s.devices serial = none := by
    cases ho : dictGet s.devices serial with
    | none => rfl
    | some v => rw [ho] at h1; simp at h1
  by_cases h2 : (s.devices.map (fun p => p.2)).any
      (fun x => decide (x.public_key = pk)) = true
  · rw [register_device_eq_dup_key h1n h2 now]
    exact ⟨hcount, hfreeB, hdevB, hnext, hsort, hkeys, hpks, htwo⟩
  have h2f : (s.devices.map (fun p => p.2)).any
      (fun x => decide (x.public_key = pk)) = false := by
    cases hval : (s.devices.map (fun p => p.2)).any
        (fun x => decide (x.public_key = pk)) with
    | false => rfl
    | true => exact absurd hval h2
  have hkeys' : ∀ D : Device,
      ((s.devices ++ [(serial, D)]).map (fun p => p.1)).Nodup := by
    intro D
    rw [List.map_append]
    refine List.Nodup.append hkeys (List.nodup_singleton _) ?_
    intro a ha hb
    simp only [List.map_cons, List.map_nil, List.mem_singleton] at hb
    subst hb
    exact not_mem_keys_of_dictGet_none h1n ha
  have hpks' : ∀ D : Device, D.public_key = pk →
      ((s.devices ++ [(serial, D)]).map (fun p => p.2.public_key)).Nodup := by
    intro D hD
    rw [List.map_append]
    refine List.Nodup.append hpks (List.nodup_singleton _) ?_
    intro a ha hb
    simp only [List.map_cons, List.map_nil, List.mem_singleton, hD] at hb
    subst hb
    exact pk_not_mem_of_any_false h2f ha
  cases hfree : s.ip_state.free_ips with
  | cons o rest =>
    rw [register_device_eq_of_free h1n h2f hfree now]
    have hobounds := hfreeB o (by rw [hfree]; exact List.mem_cons_self _ _)
    refine ⟨?_, ?_, ?_, hnext, ?_, hkeys' _, hpks' _ rfl, htwo⟩
    · intro n h2n hn
      dsimp only at hn ⊢
      have hold := hcount n h2n hn
      unfold devSuffixes at hold ⊢
      dsimp only
      rw [List.map_append, List.count_append]
      rw [hfree, List.count_cons] at hold
      by_cases hno : n = o
      · subst hno
        simp only [List.map_cons, List.map_nil, List.count_cons,
                   List.count_nil] at hold ⊢
        simp at hold ⊢
        omega
      · simp only [List.map_cons, List.map_nil, List.count_cons,
                   List.count_nil] at hold ⊢
        simp [hno] at hold ⊢
        omega
    · intro n hn
      dsimp only at hn
      exact hfreeB n (by rw [hfree]; exact List.mem_cons_of_mem _ hn)
    · intro p hp
      dsimp only at hp ⊢
      rcases List.mem_append.mp hp with hp | hp
      · exact hdevB p hp
      · simp only [List.mem_singleton] at hp
        subst hp
        exact hobounds
    · have hs := hsort
      rw [hfree] at hs
      exact (List.sorted_cons.mp hs).2
  | nil =>
    by_cases h3 : s.ip_state.next_ip ≤ s.ip_state.max_ip
    · rw [register_device_eq_of_next h1n h2f hfree h3 now]
      refine ⟨?_, ?_, ?_, by dsimp only; omega, hsort, hkeys' _, hpks' _ rfl,
              by dsimp only; omega⟩
      · intro n h2n hn
        dsimp only at hn ⊢
        unfold devSuffixes
        dsimp only
        rw [List.map_append, List.count_append, hfree]
        by_cases hno : n = s.ip_state.next_ip
        · subst hno
          have hzero : (s.devices.map
              (fun p => p.2.ip_last_octet)).count s.ip_state.next_ip = 0 := by
            apply List.count_eq_zero.mpr
            intro hmem
            obtain ⟨p, hp, hoct⟩ := List.mem_map.mp hmem
            exact absurd hoct (Nat.ne_of_lt (hdevB p hp).2)
          simp only [List.map_cons, List.map_nil, List.count_cons,
                     List.count_nil, hzero]
          simp
        · have hlt : n < s.ip_state.next_ip := by omega
          have hold := hcount n h2n hlt
          rw [hfree] at hold
          unfold devSuffixes at hold
          have hno2 : s.ip_state.next_ip ≠ n := fun he => hno he.symm
          simp only [List.map_cons, List.map_nil, List.count_cons,
                     List.count_nil] at hold ⊢
          simp [hno, hno2] at hold ⊢
          omega
      · intro n hn
        dsimp only at hn
        rw [hfree] at hn
        cases hn
      · intro p hp
        dsimp only at hp ⊢
        rcases List.mem_append.mp hp with hp | hp
        · obtain ⟨ha, hb⟩ := hdevB p hp
          exact ⟨ha, by omega⟩
        · simp only [List.mem_singleton] at hp
          subst hp
          exact ⟨htwo, Nat.lt_succ_self _⟩
    · rw [register_device_eq_exhausted h1n h2f hfree h3 now]
      exact ⟨hcount, hfreeB, hdevB, hnext, hsort, hkeys, hpks, htwo⟩

theorem poolInv_remove (s : StoreData) (serial : PyStr) (h : PoolInv s) :
    PoolInv (remove_device s serial).2 := by
  obtain ⟨hcount, hfreeB, hdevB, hnext, hsort, hkeys, hpks, htwo⟩ := h
  cases hg : dictGet s.devices serial with
  | none =>
    rw [remove_device_eq_not_found hg]
    exact ⟨hcount, hfreeB, hdevB, hnext, hsort, hkeys, hpks, htwo⟩
  | some v =>
    rw [remove_device_eq_of_get hg]
    have hperm := devices_perm_filter hkeys hg
    have hvb : 2 ≤ v.ip_last_octet
        ∧ v.ip_last_octet < s.ip_state.next_ip :=
      hdevB _ (mem_of_dictGet hg)
    have hsubl : (s.devices.filter
        (fun p => decide (¬ p.1 = serial))).Sublist s.devices :=
      List.filter_sublist _
    refine ⟨?_, ?_, ?_, hnext, ?_, ?_, ?_, htwo⟩
    · intro n h2n hn
      dsimp only at hn ⊢
      have hold := hcount n h2n hn
      have hpc := (hperm.map (fun p => p.2.ip_last_octet)).count_eq n
      rw [List.map_cons] at hpc
      rw [show ((serial, v).2.ip_last_octet) = v.ip_last_octet from rfl] at hpc
      have hfc := (pySortNat_perm
        (s.ip_state.free_ips ++ [v.ip_last_octet])).count_eq n
      rw [List.count_append] at hfc
      unfold devSuffixes at hold ⊢
      dsimp only at hpc ⊢
      by_cases hno : n = v.ip_last_octet
      · subst hno
        rw [List.count_cons_self] at hpc
        rw [List.count_singleton] at hfc
        simp at hfc
        omega
      · rw [List.count_cons_of_ne hno] at hpc
        rw [show List.count n [v.ip_last_octet] = 0 from by
          rw [List.count_cons_of_ne hno, List.count_nil]] at hfc
        omega
    · intro n hn
      dsimp only at hn ⊢
      have hmem : n ∈ s.ip_state.free_ips ++ [v.ip_last_octet] :=
        (pySortNat_perm _).mem_iff.mp hn
      rcases List.mem_append.mp hmem with hmem | hmem
      · exact hfreeB n hmem
      · rw [List.mem_singleton] at hmem
        subst hmem
        exact hvb
    · intro p hp
      dsimp only at hp ⊢
      exact hdevB p (hsubl.subset hp)
    · exact pySortNat_sorted _
    · exact List.Nodup.sublist (hsubl.map _) hkeys
    · exact List.Nodup.sublist (hsubl.map _) hpks

theorem poolInv_applyStoreOp (s : StoreData) (op : StoreOp) (h : PoolInv s) :
    PoolInv (applyStoreOp s op) := by
  cases op with
  | reg serial pk now => exact poolInv_register s serial pk now h
  | rem serial => exact poolInv_remove s serial h

theorem poolInv_initial (createdAt : PyStr) :
    PoolInv (initialStoreData createdAt) := by
  refine ⟨?_, ?_, ?_, ?_, ?_, ?_, ?_, ?_⟩ <;>
    simp [initialStoreData, devSuffixes]

theorem poolInv_runStoreOps (ops : List StoreOp) :
    ∀ s : StoreData, PoolInv s → PoolInv (runStoreOps s ops) := by
  induction ops with
  | nil => intro s h; exact h
  | cons op rest ih =>
    intro s h
    exact ih (applyStoreOp s op) (poolInv_applyStoreOp s op h)

/-- Claim C2: starting from the freshly initialized registry file, after
any finite sequence of register and remove calls no two registered
records share an address suffix, no two share a public key, and the
serial keys of the device map are pairwise distinct. -/
theorem claim_C2 (createdAt : PyStr) (ops : List StoreOp) :
    (devSuffixes (runStoreOps (initialStoreData createdAt) ops)).Nodup
    ∧ ((runStoreOps (initialStoreData createdAt) ops).devices.map
        (fun p => p.2.public_key)).Nodup
    ∧ ((runStoreOps (initialStoreData createdAt) ops).devices.map
        (fun p => p.1)).Nodup := by
  obtain ⟨hcount, hfreeB, hdevB, hnext, hsort, hkeys, hpks, htwo⟩ :=
    poolInv_runStoreOps ops (initialStoreData createdAt)
      (poolInv_initial createdAt)
  refine ⟨?_, hpks, hkeys⟩
  apply List.nodup_iff_count_le_one.mpr
  intro n
  by_cases hb : 2 ≤ n
      ∧ n < (runStoreOps (initialStoreData createdAt) ops).ip_state.next_ip
  · have := hcount n hb.1 hb.2
    omega
  · have hno : n ∉ devSuffixes (runStoreOps (initialStoreData createdAt) ops) := by
      intro hmem
      unfold devSuffixes at hmem
      obtain ⟨p, hp, hoct⟩ := List.mem_map.mp hmem
      have := hdevB p hp
      omega
    rw [List.count_eq_zero.mpr hno]
    omega

/-- Claim C4: every register and remove call preserves the
pool-accounting invariant (each suffix in the issued range is assigned to
exactly one record or on the free list exactly once, never both, and the
cursor stays within one past the bound), and — for a fresh serial and
key — registration fails with the exhaustion error exactly when the free
list is empty and the cursor is past the bound. -/
theorem claim_C4 (s : StoreData) (op : StoreOp) (h : PoolInv s) :
    PoolInv (applyStoreOp s op)
    ∧ (∀ serial pk now : PyStr,
        dictGet s.devices serial = none →
        (s.devices.map (fun p => p.2)).any
          (fun x => decide (x.public_key = pk)) = false →
        ((register_device s serial pk now).1
            = .error .noAvailableIpAddresses
          ↔ s.ip_state.free_ips = []
            ∧ s.ip_state.max_ip < s.ip_state.next_ip)) := by
  refine ⟨poolInv_applyStoreOp s op h, ?_⟩
  intro serial pk now h1 h2
  constructor
  · intro herr
    cases hfree : s.ip_state.free_ips with
    | cons o rest =>
      rw [register_device_eq_of_free h1 h2 hfree now] at herr
      simp at herr
    | nil =>
      by_cases h3 : s.ip_state.next_ip ≤ s.ip_state.max_ip
      · rw [register_device_eq_of_next h1 h2 hfree h3 now] at herr
        simp at herr
      · exact ⟨rfl, by omega⟩
  · rintro ⟨hfree, hlt⟩
    rw [register_device_eq_exhausted h1 h2 hfree (by omega) now]

theorem claim_C4_witness :
    PoolInv (applyStoreOp (initialStoreData [])
      (.reg "A".data "KA".data []))
    ∧ (∀ serial pk now : PyStr,
        dictGet (initialStoreData []).devices serial = none →
        ((initialStoreData []).devices.map (fun p => p.2)).any
          (fun x => decide (x.public_key = pk)) = false →
        ((register_device (initialStoreData []) serial pk now).1
            = .error .noAvailableIpAddresses
          ↔ (initialStoreData []).ip_state.free_ips = []
            ∧ (initialStoreData []).ip_state.max_ip
                < (initialStoreData []).ip_state.next_ip)) :=
  claim_C4 (initialStoreData []) (.reg "A".data "KA".data [])
    (poolInv_initial [])
